import Mathlib

/-!
Verification of the control-plane core of nginx-kubernetes-gateway.

This file gives a shallow embedding of the Go sources:
  * the relationship `Capturer` (package relationship),
  * the endpoint resolver (internal/state/resolver/resolver.go),
  * upstream building (internal/state/upstreams.go),
  * the `ChangeProcessorImpl` (internal/state/configuration.go),
and proves the specification claims about them.

Go maps are embedded as association lists with the usual lookup / insert /
erase operations; map reads with Go's zero-value default are written with
`Option.getD`.  Go slices that are observably nil-vs-empty are embedded as
`Option (List _)`.
-/

namespace NKG

/-- `types.NamespacedName`: (namespace, name). -/
abbrev NsName := String × String

/-! ### Association-list model of Go maps -/

/-- Map lookup (first matching key). -/
def mapLookup {α β : Type} [DecidableEq α] : List (α × β) → α → Option β
  | [], _ => none
  | (k, v) :: rest, key => if key = k then some v else mapLookup rest key

/-- Map deletion: `delete(m, k)`. -/
def mapErase {α β : Type} [DecidableEq α] (m : List (α × β)) (k : α) : List (α × β) :=
  m.filter (fun p => decide (p.1 ≠ k))

/-- Map write: `m[k] = v`. -/
def mapInsert {α β : Type} [DecidableEq α] (m : List (α × β)) (k : α) (v : β) :
    List (α × β) :=
  (k, v) :: mapErase m k

theorem mapLookup_erase {α β : Type} [DecidableEq α] (m : List (α × β)) (k key : α) :
    mapLookup (mapErase m k) key = if key = k then none else mapLookup m key := by
  induction m with
  | nil => by_cases h : key = k <;> simp [mapErase, mapLookup, h]
  | cons p rest ih =>
    obtain ⟨k₁, v₁⟩ := p
    by_cases h₁ : k₁ = k
    · subst h₁
      have heq : mapErase ((k₁, v₁) :: rest) k₁ = mapErase rest k₁ := by
        simp [mapErase]
      rw [heq, ih]
      by_cases h₂ : key = k₁ <;> simp [mapLookup, h₂]
    · have heq : mapErase ((k₁, v₁) :: rest) k = (k₁, v₁) :: mapErase rest k := by
        simp [mapErase, h₁]
      rw [heq]
      by_cases h₂ : key = k₁
      · subst h₂
        simp [mapLookup, h₁]
      · simp [mapLookup, h₂, ih]

theorem mapLookup_insert {α β : Type} [DecidableEq α] (m : List (α × β)) (k key : α)
    (v : β) :
    mapLookup (mapInsert m k v) key = if key = k then some v else mapLookup m key := by
  by_cases h : key = k
  · simp [mapInsert, mapLookup, h]
  · simp [mapInsert, mapLookup, h, mapLookup_erase]

theorem mapErase_eq_self {α β : Type} [DecidableEq α] (m : List (α × β)) (k : α)
    (h : k ∉ m.map Prod.fst) : mapErase m k = m := by
  rw [mapErase, List.filter_eq_self]
  intro p hp
  simp only [decide_eq_true_eq]
  intro hk
  exact h (List.mem_map.mpr ⟨p, hp, hk⟩)

theorem mapErase_keys_sublist {α β : Type} [DecidableEq α] (m : List (α × β)) (k : α) :
    ((mapErase m k).map Prod.fst).Sublist (m.map Prod.fst) :=
  (List.filter_sublist m).map Prod.fst

theorem mapErase_key_not_mem {α β : Type} [DecidableEq α] (m : List (α × β)) (k : α) :
    k ∉ (mapErase m k).map Prod.fst := by
  intro h
  obtain ⟨p, hp, hk⟩ := List.mem_map.mp h
  have := List.of_mem_filter hp
  simp only [decide_eq_true_eq] at this
  exact this hk

theorem mapInsert_keys_nodup {α β : Type} [DecidableEq α] (m : List (α × β)) (k : α)
    (v : β) (h : (m.map Prod.fst).Nodup) :
    ((mapInsert m k v).map Prod.fst).Nodup := by
  simp only [mapInsert, List.map_cons]
  exact List.Nodup.cons (mapErase_key_not_mem m k) ((mapErase_keys_sublist m k).nodup h)

theorem mapErase_keys_nodup {α β : Type} [DecidableEq α] (m : List (α × β)) (k : α)
    (h : (m.map Prod.fst).Nodup) : ((mapErase m k).map Prod.fst).Nodup :=
  (mapErase_keys_sublist m k).nodup h

theorem mapInsert_mem {α β : Type} [DecidableEq α] {m : List (α × β)} {k : α} {v : β}
    {p : α × β} (h : p ∈ mapInsert m k v) : p = (k, v) ∨ p ∈ m := by
  rcases List.mem_cons.mp h with h' | h'
  · exact Or.inl h'
  · exact Or.inr (List.mem_of_mem_filter h')

theorem mapLookup_mem {α β : Type} [DecidableEq α] {m : List (α × β)} {k : α} {v : β}
    (h : mapLookup m k = some v) : (k, v) ∈ m := by
  induction m with
  | nil => simp [mapLookup] at h
  | cons p rest ih =>
    obtain ⟨k₁, v₁⟩ := p
    by_cases hk : k = k₁
    · subst hk
      simp [mapLookup] at h
      subst h
      exact List.mem_cons_self _ _
    · simp [mapLookup, hk] at h
      exact List.mem_cons_of_mem _ (ih h)

theorem mapLookup_none_not_mem {α β : Type} [DecidableEq α] {m : List (α × β)} {k : α}
    (h : mapLookup m k = none) : k ∉ m.map Prod.fst := by
  induction m with
  | nil => simp
  | cons p rest ih =>
    obtain ⟨k₁, v₁⟩ := p
    by_cases hk : k = k₁
    · subst hk; simp [mapLookup] at h
    · simp only [mapLookup, if_neg hk] at h
      simp only [List.map_cons, List.mem_cons]
      rintro (h' | h')
      · exact hk h'
      · exact ih h h'

/-! ### Kubernetes object embedding

Only the fields that the verified code reads are embedded. -/

/-- `v1beta1.BackendRef` (`BackendObjectReference` part). -/
structure BackendRef where
  kind : Option String
  name : String
  namespace' : Option String
  deriving DecidableEq, Repr

/-- `v1beta1.HTTPRouteRule` (the parts read by the verified code). -/
structure HTTPRouteRule where
  backendRefs : List BackendRef
  deriving DecidableEq, Repr

/-- `v1beta1.HTTPRoute`. -/
structure HTTPRoute where
  namespace' : String
  name : String
  generation : Int
  rules : List HTTPRouteRule
  deriving DecidableEq, Repr

/-- `client.ObjectKeyFromObject` / `getNamespacedName` for an HTTPRoute. -/
def routeKey (hr : HTTPRoute) : NsName := (hr.namespace', hr.name)

/-- `v1beta1.GatewayClass` (cluster-scoped: no namespace). -/
structure GatewayClass where
  name : String
  generation : Int
  deriving DecidableEq, Repr

/-- `v1beta1.Gateway` (the parts read by the verified code). -/
structure Gateway where
  namespace' : String
  name : String
  generation : Int
  deriving DecidableEq, Repr

def gatewayKey (gw : Gateway) : NsName := (gw.namespace', gw.name)

/-- `intstr.IntOrString`. -/
inductive IntOrString where
  | int (i : Int)
  | str (s : String)
  deriving DecidableEq, Repr

/-- `intstr.IntOrString.IntValue()`: the integer itself, or `Atoi` of the string
with 0 on conversion failure. -/
def intValue : IntOrString → Int
  | .int i => i
  | .str s => (s.toInt?).getD 0

/-- `v1.ServicePort`. -/
structure ServicePort where
  port : Int
  targetPort : IntOrString
  deriving DecidableEq, Repr

/-- `v1.ServiceSpec` (ports only). -/
structure ServiceSpec where
  ports : List ServicePort
  deriving DecidableEq, Repr

/-- `v1.Service`. -/
structure Service where
  namespace' : String
  name : String
  spec : ServiceSpec
  deriving DecidableEq, Repr

def serviceKey (svc : Service) : NsName := (svc.namespace', svc.name)

/-- `metav1.OwnerReference` (kind and name only). -/
structure OwnerReference where
  kind : String
  name : String
  deriving DecidableEq, Repr

/-- `discoveryV1.AddressType`. -/
inductive AddressType where
  | IPv4
  | IPv6
  | FQDN
  deriving DecidableEq, Repr

/-- `discoveryV1.EndpointConditions`. -/
structure EndpointConditions where
  ready : Option Bool
  deriving DecidableEq, Repr

/-- `discoveryV1.Endpoint` (an endpoint inside an EndpointSlice). -/
structure KEndpoint where
  addresses : List String
  conditions : EndpointConditions
  deriving DecidableEq, Repr

/-- `discoveryV1.EndpointPort`. -/
structure EndpointPort where
  port : Option Int
  deriving DecidableEq, Repr

/-- `discoveryV1.EndpointSlice`.  `serviceNameLabel` models the
`kubernetes.io/service-name` label read by `sdk.GetServiceNameFromEndpointSlice`
(empty string when the label is absent, as in Go). -/
structure EndpointSlice where
  namespace' : String
  name : String
  serviceNameLabel : String
  ownerReferences : List OwnerReference
  addressType : AddressType
  endpoints : List KEndpoint
  ports : List EndpointPort
  deriving DecidableEq, Repr

def endpointSliceKey (es : EndpointSlice) : NsName := (es.namespace', es.name)

/-- `client.Object`: the tagged union of the supported resource kinds. -/
inductive ClientObject where
  | gatewayClass (gc : GatewayClass)
  | gateway (gw : Gateway)
  | httpRoute (hr : HTTPRoute)
  | service (svc : Service)
  | endpointSlice (es : EndpointSlice)
  deriving DecidableEq, Repr

/-- A resource type tag, as passed to `Remove`/`CaptureDeleteChange`. -/
inductive ResourceKind where
  | gatewayClass
  | gateway
  | httpRoute
  | service
  | endpointSlice
  deriving DecidableEq, Repr

/-! ### Relationship Capturer (package relationship) -/

/-- Idempotent insertion into a Go map used as a set
(`svcNames[key] = struct\x7b\x7d`). -/
def setInsert {α : Type} [DecidableEq α] (s : List α) (x : α) : List α :=
  if x ∈ s then s else s ++ [x]

/-- `ref.Kind != nil && *ref.Kind != "Service"`. -/
def refIsNonService (ref : BackendRef) : Bool :=
  match ref.kind with
  | some k => decide (k ≠ "Service")
  | none => false

/-- The backend service key derived from the first backend ref of a rule:
the ref's namespace if present, else the route's namespace. -/
def refSvcName (hr : HTTPRoute) (ref : BackendRef) : NsName :=
  (ref.namespace'.getD hr.namespace', ref.name)

/-- `getBackendServiceNamesFromRoute` (package relationship): the set of backend
service names of a route, collected as the key set of a Go map. -/
def getBackendServiceNamesFromRoute (hr : HTTPRoute) : List NsName :=
  hr.rules.foldl
    (fun svcNames rule =>
      match rule.backendRefs with
      | [] => svcNames
      | ref :: _ =>
        if refIsNonService ref then svcNames
        else setInsert svcNames (refSvcName hr ref))
    []

/-- `relationship.Capturer`. -/
structure Capturer where
  routesToServices : List (NsName × List NsName)
  serviceRefCount : List (NsName × Int)
  endpointSliceOwners : List (NsName × NsName)
  deriving DecidableEq, Repr

/-- `relationship.NewCapturer`. -/
def NewCapturer : Capturer := ⟨[], [], []⟩

/-- A read of `c.serviceRefCount[svc]` (Go map read: zero default). -/
def refCountRead (c : Capturer) (svcName : NsName) : Int :=
  (mapLookup c.serviceRefCount svcName).getD 0

/-- `Capturer.decrementRefCount`. -/
def decrementRefCount (c : Capturer) (svcName : NsName) : Capturer :=
  if refCountRead c svcName = 1 then
    { c with serviceRefCount := mapErase c.serviceRefCount svcName }
  else
    { c with serviceRefCount := mapInsert c.serviceRefCount svcName (refCountRead c svcName - 1) }

/-- `c.serviceRefCount[svc]++`. -/
def incrementRefCount (c : Capturer) (svcName : NsName) : Capturer :=
  { c with serviceRefCount := mapInsert c.serviceRefCount svcName (refCountRead c svcName + 1) }

/-- `Capturer.upsertForRoute`. -/
def upsertForRoute (c : Capturer) (route : HTTPRoute) : Capturer :=
  let oldServices := (mapLookup c.routesToServices (routeKey route)).getD []
  let newServices := getBackendServiceNamesFromRoute route
  let c₁ := oldServices.foldl
    (fun acc svc => if svc ∈ newServices then acc else decrementRefCount acc svc) c
  let c₂ := newServices.foldl
    (fun acc svc => if svc ∈ oldServices then acc else incrementRefCount acc svc) c₁
  { c₂ with routesToServices := mapInsert c₂.routesToServices (routeKey route) newServices }

/-- `Capturer.deleteForRoute`. -/
def deleteForRoute (c : Capturer) (routeName : NsName) : Capturer :=
  let services := (mapLookup c.routesToServices routeName).getD []
  let c₁ := services.foldl (fun acc svc => decrementRefCount acc svc) c
  { c₁ with routesToServices := mapErase c₁.routesToServices routeName }

/-- `Capturer.Capture`. -/
def Capture (c : Capturer) (obj : ClientObject) : Capturer :=
  match obj with
  | .httpRoute hr => upsertForRoute c hr
  | .endpointSlice es =>
    let svcName := es.serviceNameLabel
    if svcName ≠ "" then
      { c with endpointSliceOwners := mapInsert c.endpointSliceOwners (endpointSliceKey es) (es.namespace', svcName) }
    else c
  | _ => c

/-- `Capturer.Remove`. -/
def Remove (c : Capturer) (resourceType : ResourceKind) (nsname : NsName) : Capturer :=
  match resourceType with
  | .httpRoute => deleteForRoute c nsname
  | .endpointSlice => { c with endpointSliceOwners := mapErase c.endpointSliceOwners nsname }
  | _ => c

/-- One operation applied to the Capturer. -/
inductive CapturerOp where
  | capture (obj : ClientObject)
  | remove (resourceType : ResourceKind) (nsname : NsName)
  deriving DecidableEq, Repr

def applyOp (c : Capturer) : CapturerOp → Capturer
  | .capture obj => Capture c obj
  | .remove k n => Remove c k n

/-- Replaying a sequence of operations from a fresh Capturer. -/
def replay (ops : List CapturerOp) : Capturer :=
  ops.foldl applyOp NewCapturer

/-! ### The serviceRefCount invariant (C1) -/

/-- The effect of one `decrementRefCount` on a stored (optional) counter. -/
def decAt (v : Option Int) : Option Int :=
  if v.getD 0 = 1 then none else some (v.getD 0 - 1)

theorem decrementRefCount_routes (c : Capturer) (svc : NsName) :
    (decrementRefCount c svc).routesToServices = c.routesToServices := by
  unfold decrementRefCount
  split <;> rfl

theorem incrementRefCount_routes (c : Capturer) (svc : NsName) :
    (incrementRefCount c svc).routesToServices = c.routesToServices := rfl

theorem decrementRefCount_lookup (c : Capturer) (svc s : NsName) :
    mapLookup (decrementRefCount c svc).serviceRefCount s =
      if s = svc then decAt (mapLookup c.serviceRefCount svc)
      else mapLookup c.serviceRefCount s := by
  by_cases h : refCountRead c svc = 1
  · simp only [decrementRefCount, if_pos h]
    rw [mapLookup_erase]
    unfold refCountRead at h
    by_cases hs : s = svc <;> simp [hs, decAt, h]
  · simp only [decrementRefCount, if_neg h]
    rw [mapLookup_insert]
    unfold refCountRead at h
    by_cases hs : s = svc <;> simp [hs, decAt, h, refCountRead]

theorem incrementRefCount_lookup (c : Capturer) (svc s : NsName) :
    mapLookup (incrementRefCount c svc).serviceRefCount s =
      if s = svc then some ((mapLookup c.serviceRefCount svc).getD 0 + 1)
      else mapLookup c.serviceRefCount s := by
  unfold incrementRefCount refCountRead
  rw [mapLookup_insert]

theorem foldl_routes_eq {α : Type} (f : Capturer → α → Capturer)
    (hf : ∀ c a, (f c a).routesToServices = c.routesToServices) :
    ∀ (l : List α) (c : Capturer), (l.foldl f c).routesToServices = c.routesToServices := by
  intro l
  induction l with
  | nil => intro c; rfl
  | cons h t ih => intro c; rw [List.foldl_cons, ih, hf]

theorem decFold_lookup (newServices : List NsName) :
    ∀ (l : List NsName), l.Nodup → ∀ (c : Capturer) (s : NsName),
      mapLookup ((l.foldl
          (fun acc svc => if svc ∈ newServices then acc else decrementRefCount acc svc)
          c).serviceRefCount) s =
        if s ∈ l ∧ s ∉ newServices then decAt (mapLookup c.serviceRefCount s)
        else mapLookup c.serviceRefCount s := by
  intro l
  induction l with
  | nil => intro _ c s; simp
  | cons h t ih =>
    intro hnd c s
    have hht : h ∉ t := (List.nodup_cons.mp hnd).1
    have htnd : t.Nodup := (List.nodup_cons.mp hnd).2
    rw [List.foldl_cons, ih htnd]
    by_cases hst : s ∈ t ∧ s ∉ newServices
    · have hsh : s ≠ h := fun he => hht (he ▸ hst.1)
      have hstep :
          mapLookup ((if h ∈ newServices then c else decrementRefCount c h).serviceRefCount) s =
            mapLookup c.serviceRefCount s := by
        split
        · rfl
        · rw [decrementRefCount_lookup, if_neg hsh]
      rw [if_pos hst, hstep, if_pos ⟨List.mem_cons_of_mem _ hst.1, hst.2⟩]
    · rw [if_neg hst]
      by_cases hsh : s = h
      · subst hsh
        by_cases hsn : s ∈ newServices
        · rw [if_pos hsn, if_neg (fun hc => hc.2 hsn)]
        · rw [if_neg hsn, decrementRefCount_lookup, if_pos rfl,
            if_pos ⟨List.mem_cons_self _ _, hsn⟩]
      · have hcond : ¬(s ∈ h :: t ∧ s ∉ newServices) := by
          rintro ⟨hmem, hnn⟩
          rcases List.mem_cons.mp hmem with he | ht'
          · exact hsh he
          · exact hst ⟨ht', hnn⟩
        rw [if_neg hcond]
        split
        · rfl
        · rw [decrementRefCount_lookup, if_neg hsh]

theorem incFold_lookup (oldServices : List NsName) :
    ∀ (l : List NsName), l.Nodup → ∀ (c : Capturer) (s : NsName),
      mapLookup ((l.foldl
          (fun acc svc => if svc ∈ oldServices then acc else incrementRefCount acc svc)
          c).serviceRefCount) s =
        if s ∈ l ∧ s ∉ oldServices then some ((mapLookup c.serviceRefCount s).getD 0 + 1)
        else mapLookup c.serviceRefCount s := by
  intro l
  induction l with
  | nil => intro _ c s; simp
  | cons h t ih =>
    intro hnd c s
    have hht : h ∉ t := (List.nodup_cons.mp hnd).1
    have htnd : t.Nodup := (List.nodup_cons.mp hnd).2
    rw [List.foldl_cons, ih htnd]
    by_cases hst : s ∈ t ∧ s ∉ oldServices
    · have hsh : s ≠ h := fun he => hht (he ▸ hst.1)
      have hstep :
          mapLookup ((if h ∈ oldServices then c else incrementRefCount c h).serviceRefCount) s =
            mapLookup c.serviceRefCount s := by
        split
        · rfl
        · rw [incrementRefCount_lookup, if_neg hsh]
      rw [if_pos hst, hstep, if_pos ⟨List.mem_cons_of_mem _ hst.1, hst.2⟩]
    · rw [if_neg hst]
      by_cases hsh : s = h
      · subst hsh
        by_cases hsn : s ∈ oldServices
        · rw [if_pos hsn, if_neg (fun hc => hc.2 hsn)]
        · rw [if_neg hsn, incrementRefCount_lookup, if_pos rfl,
            if_pos ⟨List.mem_cons_self _ _, hsn⟩]
      · have hcond : ¬(s ∈ h :: t ∧ s ∉ oldServices) := by
          rintro ⟨hmem, hnn⟩
          rcases List.mem_cons.mp hmem with he | ht'
          · exact hsh he
          · exact hst ⟨ht', hnn⟩
        rw [if_neg hcond]
        split
        · rfl
        · rw [incrementRefCount_lookup, if_neg hsh]

theorem decFoldAll_lookup :
    ∀ (l : List NsName), l.Nodup → ∀ (c : Capturer) (s : NsName),
      mapLookup ((l.foldl (fun acc svc => decrementRefCount acc svc) c).serviceRefCount) s =
        if s ∈ l then decAt (mapLookup c.serviceRefCount s)
        else mapLookup c.serviceRefCount s := by
  intro l
  induction l with
  | nil => intro _ c s; simp
  | cons h t ih =>
    intro hnd c s
    have hht : h ∉ t := (List.nodup_cons.mp hnd).1
    have htnd : t.Nodup := (List.nodup_cons.mp hnd).2
    rw [List.foldl_cons, ih htnd]
    by_cases hst : s ∈ t
    · have hsh : s ≠ h := fun he => hht (he ▸ hst)
      rw [if_pos hst, decrementRefCount_lookup, if_neg hsh,
        if_pos (List.mem_cons_of_mem _ hst)]
    · rw [if_neg hst]
      by_cases hsh : s = h
      · subst hsh
        rw [decrementRefCount_lookup, if_pos rfl, if_pos (List.mem_cons_self _ _)]
      · have hcond : s ∉ h :: t := by
          intro hmem
          rcases List.mem_cons.mp hmem with he | ht'
          · exact hsh he
          · exact hst ht'
        rw [if_neg hcond, decrementRefCount_lookup, if_neg hsh]

/-- The number of entries of a routes-to-services map whose service set
contains `s`. -/
def countEntries (m : List (NsName × List NsName)) (s : NsName) : Nat :=
  (m.filter (fun p => decide (s ∈ p.2))).length

/-- The number of routes whose last-captured backend service set contains `s`. -/
def routeCount (c : Capturer) (s : NsName) : Nat :=
  countEntries c.routesToServices s

theorem countEntries_cons (k : NsName) (v : List NsName)
    (m : List (NsName × List NsName)) (s : NsName) :
    countEntries ((k, v) :: m) s =
      (if s ∈ v then 1 else 0) + countEntries m s := by
  by_cases h : s ∈ v <;> simp [countEntries, List.filter_cons, h, Nat.add_comm]

theorem countEntries_erase (m : List (NsName × List NsName)) (k s : NsName)
    (hnd : (m.map Prod.fst).Nodup) :
    countEntries (mapErase m k) s +
        (if s ∈ (mapLookup m k).getD [] then 1 else 0) =
      countEntries m s := by
  induction m with
  | nil => simp [countEntries, mapErase, mapLookup]
  | cons p rest ih =>
    obtain ⟨k₁, v₁⟩ := p
    simp only [List.map_cons, List.nodup_cons] at hnd
    by_cases h₁ : k₁ = k
    · subst h₁
      have herase : mapErase ((k₁, v₁) :: rest) k₁ = rest := by
        have : mapErase ((k₁, v₁) :: rest) k₁ = mapErase rest k₁ := by
          simp [mapErase]
        rw [this, mapErase_eq_self rest k₁ hnd.1]
      have hlook : mapLookup ((k₁, v₁) :: rest) k₁ = some v₁ := by
        simp [mapLookup]
      rw [herase, hlook, countEntries_cons]
      by_cases hs : s ∈ v₁ <;> simp [hs, Nat.add_comm]
    · have herase : mapErase ((k₁, v₁) :: rest) k = (k₁, v₁) :: mapErase rest k := by
        simp [mapErase, h₁]
      have hlook : mapLookup ((k₁, v₁) :: rest) k = mapLookup rest k := by
        simp [mapLookup, Ne.symm h₁]
      rw [herase, hlook, countEntries_cons, countEntries_cons, Nat.add_assoc,
        ih hnd.2]

theorem countEntries_insert (m : List (NsName × List NsName)) (k s : NsName)
    (v : List NsName) :
    countEntries (mapInsert m k v) s =
      (if s ∈ v then 1 else 0) + countEntries (mapErase m k) s := by
  rw [mapInsert, countEntries_cons]

theorem countEntries_pos {m : List (NsName × List NsName)} {k s : NsName}
    {v : List NsName} (hm : (k, v) ∈ m) (hs : s ∈ v) : 1 ≤ countEntries m s := by
  have : (k, v) ∈ m.filter (fun p => decide (s ∈ p.2)) :=
    List.mem_filter.mpr ⟨hm, by simpa using hs⟩
  have hlen := List.length_pos_of_mem this
  simpa [countEntries] using hlen

theorem setInsert_nodup {α : Type} [DecidableEq α] {s : List α} (x : α)
    (h : s.Nodup) : (setInsert s x).Nodup := by
  by_cases hx : x ∈ s
  · simp [setInsert, hx, h]
  · simp [setInsert, hx, List.nodup_append, h]

theorem getBackendServiceNamesFromRoute_nodup (hr : HTTPRoute) :
    (getBackendServiceNamesFromRoute hr).Nodup := by
  unfold getBackendServiceNamesFromRoute
  have aux : ∀ (rules : List HTTPRouteRule) (acc : List NsName), acc.Nodup →
      (rules.foldl
        (fun svcNames rule =>
          match rule.backendRefs with
          | [] => svcNames
          | ref :: _ =>
            if refIsNonService ref then svcNames
            else setInsert svcNames (refSvcName hr ref))
        acc).Nodup := by
    intro rules
    induction rules with
    | nil => intro acc hacc; exact hacc
    | cons rule rest ih =>
      intro acc hacc
      rw [List.foldl_cons]
      apply ih
      match hrefs : rule.backendRefs with
      | [] => exact hacc
      | ref :: _ =>
        by_cases hk : refIsNonService ref
        · simpa [hk] using hacc
        · simpa [hk] using setInsert_nodup (refSvcName hr ref) hacc
  exact aux hr.rules [] List.nodup_nil

/-- The well-formedness invariant of the Capturer: route keys are unique, the
stored service sets have no duplicates, and `serviceRefCount` holds exactly the
positive reference counts (absent means zero). -/
def capturerWF (c : Capturer) : Prop :=
  (c.routesToServices.map Prod.fst).Nodup ∧
  (∀ p ∈ c.routesToServices, p.2.Nodup) ∧
  ∀ s, mapLookup c.serviceRefCount s =
    if routeCount c s = 0 then none else some (routeCount c s : Int)

theorem decFold_routes (l skip : List NsName) (c : Capturer) :
    ((l.foldl (fun acc svc => if svc ∈ skip then acc else decrementRefCount acc svc)
        c).routesToServices) = c.routesToServices :=
  foldl_routes_eq _
    (fun c' a => by
      by_cases hmem : a ∈ skip
      · simp [hmem]
      · simp [hmem, decrementRefCount_routes]) l c

theorem incFold_routes (l skip : List NsName) (c : Capturer) :
    ((l.foldl (fun acc svc => if svc ∈ skip then acc else incrementRefCount acc svc)
        c).routesToServices) = c.routesToServices :=
  foldl_routes_eq _
    (fun c' a => by
      by_cases hmem : a ∈ skip
      · simp [hmem]
      · simp [hmem, incrementRefCount_routes]) l c

theorem decFoldAll_routes (l : List NsName) (c : Capturer) :
    ((l.foldl (fun acc svc => decrementRefCount acc svc) c).routesToServices) =
      c.routesToServices :=
  foldl_routes_eq _ (fun c' a => decrementRefCount_routes c' a) l c

theorem upsertForRoute_routes (c : Capturer) (r : HTTPRoute) :
    (upsertForRoute c r).routesToServices =
      mapInsert c.routesToServices (routeKey r) (getBackendServiceNamesFromRoute r) := by
  show mapInsert (_ : Capturer).routesToServices _ _ = _
  rw [incFold_routes, decFold_routes]

theorem deleteForRoute_routes (c : Capturer) (routeName : NsName) :
    (deleteForRoute c routeName).routesToServices =
      mapErase c.routesToServices routeName := by
  show mapErase (_ : Capturer).routesToServices _ = _
  rw [decFoldAll_routes]

theorem upsertForRoute_lookup (c : Capturer) (r : HTTPRoute) (s : NsName)
    (hold_nd : ((mapLookup c.routesToServices (routeKey r)).getD []).Nodup) :
    mapLookup (upsertForRoute c r).serviceRefCount s =
      if s ∈ getBackendServiceNamesFromRoute r ∧
          s ∉ (mapLookup c.routesToServices (routeKey r)).getD [] then
        some ((mapLookup c.serviceRefCount s).getD 0 + 1)
      else if s ∈ (mapLookup c.routesToServices (routeKey r)).getD [] ∧
          s ∉ getBackendServiceNamesFromRoute r then
        decAt (mapLookup c.serviceRefCount s)
      else mapLookup c.serviceRefCount s := by
  have hnew_nd := getBackendServiceNamesFromRoute_nodup r
  show mapLookup ((List.foldl _ _ (getBackendServiceNamesFromRoute r) : Capturer)).serviceRefCount s = _
  rw [incFold_lookup _ _ hnew_nd, decFold_lookup _ _ hold_nd]
  by_cases h1 : s ∈ getBackendServiceNamesFromRoute r ∧
      s ∉ (mapLookup c.routesToServices (routeKey r)).getD []
  · rw [if_pos h1, if_pos h1, if_neg (fun hc => h1.2 hc.1)]
  · rw [if_neg h1, if_neg h1]

theorem deleteForRoute_lookup (c : Capturer) (routeName : NsName) (s : NsName)
    (hold_nd : ((mapLookup c.routesToServices routeName).getD []).Nodup) :
    mapLookup (deleteForRoute c routeName).serviceRefCount s =
      if s ∈ (mapLookup c.routesToServices routeName).getD [] then
        decAt (mapLookup c.serviceRefCount s)
      else mapLookup c.serviceRefCount s := by
  show mapLookup ((List.foldl _ _ ((mapLookup c.routesToServices routeName).getD []) : Capturer)).serviceRefCount s = _
  rw [decFoldAll_lookup _ hold_nd]

theorem capturerWF_old_nodup {c : Capturer} (h : capturerWF c) (k : NsName) :
    ((mapLookup c.routesToServices k).getD []).Nodup := by
  cases hlook : mapLookup c.routesToServices k with
  | none => simp
  | some v => simpa using h.2.1 _ (mapLookup_mem hlook)

theorem lookup_getD_eq_routeCount {c : Capturer} (h : capturerWF c) (s : NsName) :
    (mapLookup c.serviceRefCount s).getD 0 = (routeCount c s : Int) := by
  rw [h.2.2 s]
  by_cases hrc : routeCount c s = 0 <;> simp [hrc]

theorem upsertForRoute_WF (c : Capturer) (r : HTTPRoute) (h : capturerWF c) :
    capturerWF (upsertForRoute c r) := by
  have hkeys := h.1
  have hsets := h.2.1
  have hcount := h.2.2
  have hnew_nd := getBackendServiceNamesFromRoute_nodup r
  have hold_nd := capturerWF_old_nodup h (routeKey r)
  refine ⟨?_, ?_, ?_⟩
  · rw [upsertForRoute_routes]
    exact mapInsert_keys_nodup _ _ _ hkeys
  · rw [upsertForRoute_routes]
    intro p hp
    rcases mapInsert_mem hp with he | hm
    · rw [he]
      exact hnew_nd
    · exact hsets p hm
  · intro s
    have hrc : routeCount (upsertForRoute c r) s =
        (if s ∈ getBackendServiceNamesFromRoute r then 1 else 0) +
          countEntries (mapErase c.routesToServices (routeKey r)) s := by
      unfold routeCount
      rw [upsertForRoute_routes, countEntries_insert]
    have he : countEntries (mapErase c.routesToServices (routeKey r)) s +
        (if s ∈ (mapLookup c.routesToServices (routeKey r)).getD [] then 1 else 0) =
          routeCount c s := countEntries_erase _ _ _ hkeys
    rw [upsertForRoute_lookup c r s hold_nd, hrc]
    by_cases h1 : s ∈ getBackendServiceNamesFromRoute r <;>
      by_cases h2 : s ∈ (mapLookup c.routesToServices (routeKey r)).getD []
    · -- in both the new and the old set: counts unchanged
      rw [if_neg (fun hc => hc.2 h2), if_neg (fun hc => hc.2 h1), hcount s]
      rw [if_pos h1] at hrc ⊢
      rw [if_pos h2] at he
      have hrceq : routeCount c s =
          1 + countEntries (mapErase c.routesToServices (routeKey r)) s := by omega
      rw [hrceq]
    · -- newly referenced: increment
      rw [if_pos ⟨h1, h2⟩]
      rw [if_pos h1] at hrc ⊢
      rw [if_neg h2] at he
      rw [lookup_getD_eq_routeCount h s]
      rw [if_neg (by omega)]
      congr 1
      omega
    · -- no longer referenced: decrement
      rw [if_neg (fun hc => hc.2 h2), if_pos ⟨h2, h1⟩]
      rw [if_neg h1] at hrc ⊢
      rw [if_pos h2] at he
      rw [hcount s, if_neg (by omega)]
      simp only [decAt, Option.getD_some]
      by_cases hz : countEntries (mapErase c.routesToServices (routeKey r)) s = 0
      · rw [if_pos (by omega), if_pos (by omega)]
      · rw [if_neg (by omega), if_neg (by omega)]
        congr 1
        omega
    · -- untouched
      rw [if_neg (fun hc => h1 hc.1), if_neg (fun hc => h2 hc.1), hcount s]
      rw [if_neg h1] at hrc ⊢
      rw [if_neg h2] at he
      have hrceq : routeCount c s =
          0 + countEntries (mapErase c.routesToServices (routeKey r)) s := by omega
      rw [hrceq]

theorem deleteForRoute_WF (c : Capturer) (routeName : NsName) (h : capturerWF c) :
    capturerWF (deleteForRoute c routeName) := by
  have hkeys := h.1
  have hsets := h.2.1
  have hcount := h.2.2
  have hold_nd := capturerWF_old_nodup h routeName
  refine ⟨?_, ?_, ?_⟩
  · rw [deleteForRoute_routes]
    exact mapErase_keys_nodup _ _ hkeys
  · rw [deleteForRoute_routes]
    intro p hp
    exact hsets p (List.mem_of_mem_filter hp)
  · intro s
    have hrc : routeCount (deleteForRoute c routeName) s =
        countEntries (mapErase c.routesToServices routeName) s := by
      unfold routeCount
      rw [deleteForRoute_routes]
    have he : countEntries (mapErase c.routesToServices routeName) s +
        (if s ∈ (mapLookup c.routesToServices routeName).getD [] then 1 else 0) =
          routeCount c s := countEntries_erase _ _ _ hkeys
    rw [deleteForRoute_lookup c routeName s hold_nd, hrc]
    by_cases h2 : s ∈ (mapLookup c.routesToServices routeName).getD []
    · rw [if_pos h2]
      rw [if_pos h2] at he
      rw [hcount s, if_neg (by omega)]
      simp only [decAt, Option.getD_some]
      by_cases hz : countEntries (mapErase c.routesToServices routeName) s = 0
      · rw [if_pos (by omega), if_pos (by omega)]
      · rw [if_neg (by omega), if_neg (by omega)]
        congr 1
        omega
    · rw [if_neg h2, hcount s]
      rw [if_neg h2] at he
      have hrceq : routeCount c s =
          countEntries (mapErase c.routesToServices routeName) s := by omega
      rw [hrceq]

theorem Capture_WF (c : Capturer) (obj : ClientObject) (h : capturerWF c) :
    capturerWF (Capture c obj) := by
  cases obj with
  | httpRoute hr => exact upsertForRoute_WF c hr h
  | endpointSlice es =>
    unfold Capture
    dsimp only
    split <;> exact h
  | gatewayClass gc => exact h
  | gateway gw => exact h
  | service svc => exact h

theorem Remove_WF (c : Capturer) (k : ResourceKind) (n : NsName) (h : capturerWF c) :
    capturerWF (Remove c k n) := by
  cases k with
  | httpRoute => exact deleteForRoute_WF c n h
  | endpointSlice => exact h
  | gatewayClass => exact h
  | gateway => exact h
  | service => exact h

theorem NewCapturer_WF : capturerWF NewCapturer := by
  refine ⟨List.nodup_nil, ?_, ?_⟩
  · intro p hp
    simp [NewCapturer] at hp
  · intro s
    simp [NewCapturer, mapLookup, routeCount, countEntries]

theorem replay_WF (ops : List CapturerOp) : capturerWF (replay ops) := by
  have aux : ∀ (l : List CapturerOp) (c : Capturer), capturerWF c →
      capturerWF (l.foldl applyOp c) := by
    intro l
    induction l with
    | nil => intro c hc; exact hc
    | cons op rest ih =>
      intro c hc
      rw [List.foldl_cons]
      apply ih
      cases op with
      | capture obj => exact Capture_WF c obj hc
      | remove k n => exact Remove_WF c k n hc
  exact aux ops NewCapturer NewCapturer_WF

/-- C1: after any sequence of Capture and Remove operations starting from a
fresh Capturer, `serviceRefCount[s]` equals the number of routes whose
last-captured backend service set contains `s`; the entry is absent exactly
when that count is zero, and every stored count is positive. -/
theorem serviceRefCount_invariant (ops : List CapturerOp) (s : NsName) :
    mapLookup (replay ops).serviceRefCount s =
      (if routeCount (replay ops) s = 0 then none
       else some (routeCount (replay ops) s : Int)) ∧
    ∀ v : Int, mapLookup (replay ops).serviceRefCount s = some v → 0 < v := by
  have h := replay_WF ops
  refine ⟨h.2.2 s, ?_⟩
  intro v hv
  rw [h.2.2 s] at hv
  by_cases hrc : routeCount (replay ops) s = 0
  · simp [hrc] at hv
  · rw [if_neg hrc] at hv
    have := Option.some.inj hv
    omega

/-- A concrete route with a single Service backend, used by witnesses. -/
def demoRouteA : HTTPRoute :=
  { namespace' := "test", name := "hr-1", generation := 1,
    rules := [{ backendRefs := [{ kind := some "Service", name := "svc1", namespace' := none }] }] }

/-- The same route key re-captured with no backends, used by witnesses. -/
def demoRouteEmpty : HTTPRoute :=
  { namespace' := "test", name := "hr-1", generation := 2, rules := [] }

/-- Witness for C1 at a concrete operation sequence. -/
theorem serviceRefCount_invariant_witness :
    mapLookup (replay [CapturerOp.capture (ClientObject.httpRoute demoRouteA)]).serviceRefCount
        ("test", "svc1") =
      (if routeCount (replay [CapturerOp.capture (ClientObject.httpRoute demoRouteA)])
          ("test", "svc1") = 0 then none
       else some (routeCount (replay [CapturerOp.capture (ClientObject.httpRoute demoRouteA)])
          ("test", "svc1") : Int)) ∧
    (0 : Int) < 1 :=
  ⟨(serviceRefCount_invariant [CapturerOp.capture (ClientObject.httpRoute demoRouteA)]
      ("test", "svc1")).1,
   (serviceRefCount_invariant [CapturerOp.capture (ClientObject.httpRoute demoRouteA)]
      ("test", "svc1")).2 1 (by decide)⟩

/-! ### Capture / Remove round trip (C2) -/

theorem foldl_owners_eq {α : Type} (f : Capturer → α → Capturer)
    (hf : ∀ c a, (f c a).endpointSliceOwners = c.endpointSliceOwners) :
    ∀ (l : List α) (c : Capturer),
      (l.foldl f c).endpointSliceOwners = c.endpointSliceOwners := by
  intro l
  induction l with
  | nil => intro c; rfl
  | cons h t ih => intro c; rw [List.foldl_cons, ih, hf]

theorem decrementRefCount_owners (c : Capturer) (svc : NsName) :
    (decrementRefCount c svc).endpointSliceOwners = c.endpointSliceOwners := by
  unfold decrementRefCount
  split <;> rfl

theorem incrementRefCount_owners (c : Capturer) (svc : NsName) :
    (incrementRefCount c svc).endpointSliceOwners = c.endpointSliceOwners := rfl

theorem upsertForRoute_owners (c : Capturer) (r : HTTPRoute) :
    (upsertForRoute c r).endpointSliceOwners = c.endpointSliceOwners := by
  show (List.foldl _ _ (getBackendServiceNamesFromRoute r) : Capturer).endpointSliceOwners = _
  rw [foldl_owners_eq _ (fun c' a => by
      by_cases hmem : a ∈ (mapLookup c.routesToServices (routeKey r)).getD []
      · simp [hmem]
      · simp [hmem, incrementRefCount_owners]),
    foldl_owners_eq _ (fun c' a => by
      by_cases hmem : a ∈ getBackendServiceNamesFromRoute r
      · simp [hmem]
      · simp [hmem, decrementRefCount_owners])]

theorem deleteForRoute_owners (c : Capturer) (routeName : NsName) :
    (deleteForRoute c routeName).endpointSliceOwners = c.endpointSliceOwners := by
  show (List.foldl _ _ ((mapLookup c.routesToServices routeName).getD []) : Capturer).endpointSliceOwners = _
  rw [foldl_owners_eq _ (fun c' a => decrementRefCount_owners c' a)]

/-- C2 (counterexample): capturing a new instance of an already-tracked route
and then removing the route does not restore the Capturer to its state before
the capture: the route entry is gone entirely. -/
theorem capture_remove_roundtrip_cex :
    mapLookup (Remove
        (Capture (replay [CapturerOp.capture (ClientObject.httpRoute demoRouteA)])
          (ClientObject.httpRoute demoRouteEmpty))
        ResourceKind.httpRoute ("test", "hr-1")).routesToServices ("test", "hr-1") ≠
      mapLookup (replay [CapturerOp.capture (ClientObject.httpRoute demoRouteA)]).routesToServices
        ("test", "hr-1") := by
  decide

/-- C2 (amended): provided the Capturer holds no entry for the route's key
(and it stores no zero counts — both guaranteed for reachable states by the
C1 invariant), `Capture(x); Remove(HTTPRoute, key(x))` restores
`routesToServices` and `serviceRefCount` exactly (as lookup functions), and
leaves `endpointSliceOwners` untouched. -/
theorem capture_remove_roundtrip (c : Capturer) (x : HTTPRoute)
    (hfresh : mapLookup c.routesToServices (routeKey x) = none)
    (hnz : ∀ s v, mapLookup c.serviceRefCount s = some v → v ≠ 0) :
    (∀ k, mapLookup (Remove (Capture c (ClientObject.httpRoute x))
        ResourceKind.httpRoute (routeKey x)).routesToServices k =
      mapLookup c.routesToServices k) ∧
    (∀ s, mapLookup (Remove (Capture c (ClientObject.httpRoute x))
        ResourceKind.httpRoute (routeKey x)).serviceRefCount s =
      mapLookup c.serviceRefCount s) ∧
    (Remove (Capture c (ClientObject.httpRoute x))
        ResourceKind.httpRoute (routeKey x)).endpointSliceOwners =
      c.endpointSliceOwners := by
  have hold_nd : ((mapLookup c.routesToServices (routeKey x)).getD []).Nodup := by
    rw [hfresh]; exact List.nodup_nil
  have hnew_nd := getBackendServiceNamesFromRoute_nodup x
  have hupsert_routes := upsertForRoute_routes c x
  have hupsold :
      (mapLookup (upsertForRoute c x).routesToServices (routeKey x)).getD [] =
        getBackendServiceNamesFromRoute x := by
    rw [hupsert_routes, mapLookup_insert, if_pos rfl, Option.getD_some]
  have hupsold_nd :
      ((mapLookup (upsertForRoute c x).routesToServices (routeKey x)).getD []).Nodup := by
    rw [hupsold]; exact hnew_nd
  refine ⟨?_, ?_, ?_⟩
  · intro k
    show mapLookup (deleteForRoute (upsertForRoute c x) (routeKey x)).routesToServices k = _
    rw [deleteForRoute_routes, mapLookup_erase, hupsert_routes, mapLookup_insert]
    by_cases hk : k = routeKey x
    · rw [if_pos hk, hk, hfresh]
    · rw [if_neg hk, if_neg hk]
  · intro s
    show mapLookup (deleteForRoute (upsertForRoute c x) (routeKey x)).serviceRefCount s = _
    rw [deleteForRoute_lookup _ _ _ hupsold_nd, hupsold,
      upsertForRoute_lookup c x s hold_nd, hfresh]
    by_cases hs : s ∈ getBackendServiceNamesFromRoute x
    · rw [if_pos hs, if_pos (by simpa using hs)]
      cases hl : mapLookup c.serviceRefCount s with
      | none => simp [decAt]
      | some w =>
        have hw := hnz s w hl
        simp only [Option.getD_some, decAt]
        rw [if_neg (by omega)]
        congr 1
        omega
    · rw [if_neg hs, if_neg (by simpa using hs), if_neg (by simp)]
  · show (deleteForRoute (upsertForRoute c x) (routeKey x)).endpointSliceOwners = _
    rw [deleteForRoute_owners, upsertForRoute_owners]

/-- Witness for the amended C2 at a concrete Capturer and route. -/
theorem capture_remove_roundtrip_witness :
    mapLookup (Remove (Capture NewCapturer (ClientObject.httpRoute demoRouteA))
        ResourceKind.httpRoute (routeKey demoRouteA)).serviceRefCount ("test", "svc1") =
      mapLookup NewCapturer.serviceRefCount ("test", "svc1") :=
  (capture_remove_roundtrip NewCapturer demoRouteA rfl
    (fun s v h => by simp [NewCapturer, mapLookup] at h)).2.1 ("test", "svc1")

/-! ### Endpoint resolver (internal/state/resolver/resolver.go) -/

/-- `resolver.Endpoint`: the internal representation of a resolved endpoint. -/
structure Endpoint where
  Address : String
  Port : Int
  deriving DecidableEq, Repr

/-- The errors `Resolve` can return (identified by their format strings). -/
inductive ResolveError where
  /-- "cannot resolve a nil Service" -/
  | nilService
  /-- "no endpoints found for Service X" -/
  | noEndpoints
  /-- "no matching target port for Service X and port P" -/
  | noMatchingTargetPort
  /-- "no valid endpoints found for Service X and port P" -/
  | noValidEndpoints
  deriving DecidableEq, Repr

/-- `endpointReady`: `ready != nil && *ready`. -/
def endpointReady (endpoint : KEndpoint) : Bool :=
  match endpoint.conditions.ready with
  | some b => b
  | none => false

/-- `targetPortExists`: some non-nil port of the slice equals the target. -/
def targetPortExists (ports : List EndpointPort) (targetPort : Int) : Bool :=
  ports.any (fun port =>
    match port.port with
    | none => false
    | some p => decide (p = targetPort))

/-- `ignoreEndpointSlice`. -/
def ignoreEndpointSlice (endpointSlice : EndpointSlice) (targetPort : Int) : Bool :=
  decide (endpointSlice.addressType ≠ AddressType.IPv4) ||
    !(targetPortExists endpointSlice.ports targetPort)

/-- `calculateEndpointSliceCapacity`. -/
def calculateEndpointSliceCapacity (endpointSlices : List EndpointSlice)
    (targetPort : Int) : Nat :=
  endpointSlices.foldl
    (fun capacity es =>
      if ignoreEndpointSlice es targetPort then capacity
      else es.endpoints.foldl
        (fun cap e => if !endpointReady e then cap else cap + e.addresses.length)
        capacity)
    0

/-- Go's `int32(v)` conversion (two's-complement wrap-around). -/
def toInt32 (v : Int) : Int := (v + 2 ^ 31) % 2 ^ 32 - 2 ^ 31

/-- The loop body of `getTargetPort`; the first entry whose `Port` matches
decides the outcome (`break` on a zero target). -/
def getTargetPortLoop (svcPort : Int) : List ServicePort → Except ResolveError Int
  | [] => .error .noMatchingTargetPort
  | port :: rest =>
    if port.port = svcPort then
      if intValue port.targetPort = 0 then .error .noMatchingTargetPort
      else .ok (toInt32 (intValue port.targetPort))
    else getTargetPortLoop svcPort rest

/-- `getTargetPort`. -/
def getTargetPort (svc : Service) (svcPort : Int) : Except ResolveError Int :=
  getTargetPortLoop svcPort svc.spec.ports

/-- The endpoint-collecting loop of `resolveEndpoints` (appending one entry
per address of each Ready endpoint of each non-ignored slice). -/
def enumerateEndpoints (endpointSliceList : List EndpointSlice) (targetPort : Int) :
    List Endpoint :=
  endpointSliceList.foldl
    (fun endpoints eps =>
      if ignoreEndpointSlice eps targetPort then endpoints
      else eps.endpoints.foldl
        (fun acc endpoint =>
          if !endpointReady endpoint then acc
          else endpoint.addresses.foldl
            (fun acc2 address => acc2 ++ [{ Address := address, Port := targetPort }])
            acc)
        endpoints)
    []

/-- `resolveEndpoints`. -/
def resolveEndpoints (svc : Service) (svcPort : Int)
    (endpointSliceList : List EndpointSlice) : Except ResolveError (List Endpoint) :=
  match getTargetPort svc svcPort with
  | .error e => .error e
  | .ok targetPort =>
    if calculateEndpointSliceCapacity endpointSliceList targetPort = 0 then
      .error .noValidEndpoints
    else .ok (enumerateEndpoints endpointSliceList targetPort)

/-- `ServiceResolverImpl.Resolve`.  The client's `List` call is embedded as the
returned `endpointSliceList` plus a `listErr` flag for the error case. -/
def Resolve (svc : Option Service) (svcPort : Int) (listErr : Bool)
    (endpointSliceList : List EndpointSlice) : Except ResolveError (List Endpoint) :=
  match svc with
  | none => .error .nilService
  | some s =>
    if listErr ∨ endpointSliceList.length = 0 then .error .noEndpoints
    else resolveEndpoints s svcPort endpointSliceList

theorem foldl_append_singleton {α β : Type} (f : α → β) :
    ∀ (l : List α) (acc : List β),
      l.foldl (fun a x => a ++ [f x]) acc = acc ++ l.map f := by
  intro l
  induction l with
  | nil => intro acc; simp
  | cons x rest ih => intro acc; simp [ih]

theorem endpointsFold_eq (tp : Int) :
    ∀ (eps : List KEndpoint) (acc : List Endpoint),
      eps.foldl
        (fun acc endpoint =>
          if !endpointReady endpoint then acc
          else endpoint.addresses.foldl
            (fun acc2 address => acc2 ++ [{ Address := address, Port := tp }]) acc)
        acc =
      acc ++ (eps.filter endpointReady).flatMap
        (fun e => e.addresses.map (fun a => { Address := a, Port := tp })) := by
  intro eps
  induction eps with
  | nil => intro acc; simp
  | cons e rest ih =>
    intro acc
    rw [List.foldl_cons]
    by_cases hr : endpointReady e
    · rw [if_neg (by simp [hr]), foldl_append_singleton, ih]
      simp [List.filter_cons, hr]
    · rw [if_pos (by simp [hr]), ih]
      simp [List.filter_cons, hr]

theorem enumerateEndpoints_eq (slices : List EndpointSlice) (tp : Int) :
    enumerateEndpoints slices tp =
      (slices.filter (fun es => !ignoreEndpointSlice es tp)).flatMap
        (fun es => (es.endpoints.filter endpointReady).flatMap
          (fun e => e.addresses.map (fun a => { Address := a, Port := tp }))) := by
  have aux : ∀ (l : List EndpointSlice) (acc : List Endpoint),
      l.foldl
        (fun endpoints eps =>
          if ignoreEndpointSlice eps tp then endpoints
          else eps.endpoints.foldl
            (fun acc endpoint =>
              if !endpointReady endpoint then acc
              else endpoint.addresses.foldl
                (fun acc2 address => acc2 ++ [{ Address := address, Port := tp }]) acc)
            endpoints)
        acc =
      acc ++ (l.filter (fun es => !ignoreEndpointSlice es tp)).flatMap
        (fun es => (es.endpoints.filter endpointReady).flatMap
          (fun e => e.addresses.map (fun a => { Address := a, Port := tp }))) := by
    intro l
    induction l with
    | nil => intro acc; simp
    | cons es rest ih =>
      intro acc
      rw [List.foldl_cons]
      by_cases hig : ignoreEndpointSlice es tp
      · rw [if_pos hig, ih]
        simp [List.filter_cons, hig]
      · rw [if_neg hig, endpointsFold_eq, ih]
        simp [List.filter_cons, hig]
  simpa [enumerateEndpoints] using aux slices []

theorem capacityInnerFold_eq (tp : Int) :
    ∀ (eps : List KEndpoint) (cap : Nat),
      eps.foldl (fun cap e => if !endpointReady e then cap else cap + e.addresses.length)
        cap =
      cap + ((eps.filter endpointReady).flatMap
        (fun e => e.addresses.map (fun a => ({ Address := a, Port := tp } : Endpoint)))).length := by
  intro eps
  induction eps with
  | nil => intro cap; simp
  | cons e rest ih =>
    intro cap
    rw [List.foldl_cons]
    by_cases hr : endpointReady e
    · rw [if_neg (by simp [hr]), ih]
      simp [List.filter_cons, hr]
      omega
    · rw [if_pos (by simp [hr]), ih]
      simp [List.filter_cons, hr]

theorem calculateEndpointSliceCapacity_eq (slices : List EndpointSlice) (tp : Int) :
    calculateEndpointSliceCapacity slices tp = (enumerateEndpoints slices tp).length := by
  rw [enumerateEndpoints_eq]
  have aux : ∀ (l : List EndpointSlice) (cap : Nat),
      l.foldl
        (fun capacity es =>
          if ignoreEndpointSlice es tp then capacity
          else es.endpoints.foldl
            (fun cap e => if !endpointReady e then cap else cap + e.addresses.length)
            capacity)
        cap =
      cap + ((l.filter (fun es => !ignoreEndpointSlice es tp)).flatMap
        (fun es => (es.endpoints.filter endpointReady).flatMap
          (fun e => e.addresses.map (fun a => ({ Address := a, Port := tp } : Endpoint))))).length := by
    intro l
    induction l with
    | nil => intro cap; simp
    | cons es rest ih =>
      intro cap
      rw [List.foldl_cons]
      by_cases hig : ignoreEndpointSlice es tp
      · rw [if_pos hig, ih]
        simp [List.filter_cons, hig]
      · rw [if_neg hig, capacityInnerFold_eq tp, ih]
        simp [List.filter_cons, hig]
        omega
  simpa [calculateEndpointSliceCapacity] using aux slices 0

/-- C3: every endpoint emitted by a successful Resolve originates from a slice
that is IPv4 and lists the resolved target port, and from an endpoint whose
Ready condition is present and true; exactly one (address, targetPort) pair is
emitted per listed address of each such endpoint, each with Port equal to the
target port. -/
theorem resolve_emits (s : Service) (svcPort : Int) (listErr : Bool)
    (slices : List EndpointSlice) (eps : List Endpoint)
    (h : Resolve (some s) svcPort listErr slices = .ok eps) :
    ∃ tp, getTargetPort s svcPort = .ok tp ∧
      eps = (slices.filter (fun es => !ignoreEndpointSlice es tp)).flatMap
        (fun es => (es.endpoints.filter endpointReady).flatMap
          (fun e => e.addresses.map (fun a => { Address := a, Port := tp }))) ∧
      ∀ ep ∈ eps, ep.Port = tp := by
  simp only [Resolve] at h
  by_cases hl : listErr ∨ slices.length = 0
  · rw [if_pos hl] at h
    exact absurd h (by simp)
  · rw [if_neg hl] at h
    cases hgt : getTargetPort s svcPort with
    | error e =>
      simp [resolveEndpoints, hgt] at h
    | ok tp =>
      simp only [resolveEndpoints, hgt] at h
      by_cases hcap : calculateEndpointSliceCapacity slices tp = 0
      · rw [if_pos hcap] at h
        exact absurd h (by simp)
      · rw [if_neg hcap] at h
        have heps : eps = enumerateEndpoints slices tp := (Except.ok.inj h).symm
        refine ⟨tp, rfl, ?_, ?_⟩
        · rw [heps, enumerateEndpoints_eq]
        · intro ep hep
          rw [heps, enumerateEndpoints_eq] at hep
          obtain ⟨es, _, hep⟩ := List.mem_flatMap.mp hep
          obtain ⟨e, _, hep⟩ := List.mem_flatMap.mp hep
          obtain ⟨a, _, hep⟩ := List.mem_map.mp hep
          rw [← hep]

/-- A concrete Service with one matching port, used by witnesses. -/
def demoService : Service :=
  { namespace' := "test", name := "svc",
    spec := { ports := [{ port := 80, targetPort := IntOrString.int 8080 }] } }

/-- A concrete EndpointSlice with one ready endpoint, used by witnesses. -/
def demoSlice : EndpointSlice :=
  { namespace' := "test", name := "svc-1", serviceNameLabel := "svc",
    ownerReferences := [{ kind := "Service", name := "svc" }],
    addressType := AddressType.IPv4,
    endpoints := [{ addresses := ["10.0.0.1"], conditions := { ready := some true } }],
    ports := [{ port := some 8080 }] }

/-- Witness for C3 at a concrete Service and EndpointSlice list. -/
theorem resolve_emits_witness :
    ∃ tp, getTargetPort demoService 80 = .ok tp ∧
      [({ Address := "10.0.0.1", Port := 8080 } : Endpoint)] =
        ([demoSlice].filter (fun es => !ignoreEndpointSlice es tp)).flatMap
          (fun es => (es.endpoints.filter endpointReady).flatMap
            (fun e => e.addresses.map (fun a => { Address := a, Port := tp }))) ∧
      ∀ ep ∈ [({ Address := "10.0.0.1", Port := 8080 } : Endpoint)], ep.Port = tp :=
  resolve_emits demoService 80 false [demoSlice]
    [{ Address := "10.0.0.1", Port := 8080 }] rfl

/-- A concrete Service with no ports at all, used for C4. -/
def demoServiceNoPorts : Service :=
  { namespace' := "test", name := "svc", spec := { ports := [] } }

/-- C4 (counterexample): for a Service with no matching target port and an
empty EndpointSlice list, Resolve fails with the "no endpoints found" error,
not with the "no matching target port" error claimed. -/
theorem resolve_no_match_cex :
    Resolve (some demoServiceNoPorts) 80 false [] = .error ResolveError.noEndpoints ∧
    ResolveError.noEndpoints ≠ ResolveError.noMatchingTargetPort :=
  ⟨rfl, by decide⟩

theorem getTargetPortLoop_error (svcPort : Int) :
    ∀ (l : List ServicePort),
      (∀ p ∈ l, p.port = svcPort → intValue p.targetPort = 0) →
      getTargetPortLoop svcPort l = .error .noMatchingTargetPort := by
  intro l
  induction l with
  | nil => intro _; rfl
  | cons p rest ih =>
    intro hc
    by_cases hp : p.port = svcPort
    · have hz := hc p (List.mem_cons_self _ _) hp
      simp [getTargetPortLoop, hp, hz]
    · simp only [getTargetPortLoop, if_neg hp]
      exact ih (fun q hq => hc q (List.mem_cons_of_mem _ hq))

/-- C4 (amended): for a non-nil Service whose spec.ports contain no entry with
port equal to svcPort and a non-zero integer target port, Resolve fails — with
the "no endpoints found" error when the EndpointSlice listing errs or returns
nothing, and with the "no matching target port" error otherwise. -/
theorem resolve_no_matching_target_port (svc : Service) (svcPort : Int)
    (listErr : Bool) (slices : List EndpointSlice)
    (hcond : ∀ p ∈ svc.spec.ports, p.port = svcPort → intValue p.targetPort = 0) :
    (listErr ∨ slices.length = 0 →
      Resolve (some svc) svcPort listErr slices = .error ResolveError.noEndpoints) ∧
    (¬(listErr ∨ slices.length = 0) →
      Resolve (some svc) svcPort listErr slices = .error ResolveError.noMatchingTargetPort) := by
  have hgt : getTargetPort svc svcPort = .error .noMatchingTargetPort :=
    getTargetPortLoop_error svcPort svc.spec.ports hcond
  constructor
  · intro hl
    simp only [Resolve]
    rw [if_pos hl]
  · intro hl
    simp only [Resolve]
    rw [if_neg hl]
    simp [resolveEndpoints, hgt]

/-- Witness for the amended C4 at a concrete Service. -/
theorem resolve_no_matching_target_port_witness :
    Resolve (some demoServiceNoPorts) 80 true [demoSlice] =
      .error ResolveError.noEndpoints ∧
    Resolve (some demoServiceNoPorts) 80 false [demoSlice] =
      .error ResolveError.noMatchingTargetPort :=
  ⟨(resolve_no_matching_target_port demoServiceNoPorts 80 true [demoSlice]
      (by simp [demoServiceNoPorts])).1 (Or.inl rfl),
   (resolve_no_matching_target_port demoServiceNoPorts 80 false [demoSlice]
      (by simp [demoServiceNoPorts])).2 (by simp)⟩

/-- C8: the first-pass capacity equals the length of the endpoint list the
enumeration produces, and Resolve fails with the "no valid endpoints" error
exactly when that enumeration is empty. -/
theorem capacity_matches_enumeration (svc : Service) (svcPort : Int)
    (slices : List EndpointSlice) (tp : Int)
    (hne : slices.length ≠ 0) (htp : getTargetPort svc svcPort = .ok tp) :
    calculateEndpointSliceCapacity slices tp = (enumerateEndpoints slices tp).length ∧
    (Resolve (some svc) svcPort false slices = .error ResolveError.noValidEndpoints ↔
      enumerateEndpoints slices tp = []) := by
  refine ⟨calculateEndpointSliceCapacity_eq slices tp, ?_⟩
  simp only [Resolve]
  rw [if_neg (by simp [hne])]
  simp only [resolveEndpoints, htp]
  by_cases hcap : calculateEndpointSliceCapacity slices tp = 0
  · rw [if_pos hcap]
    have hlen : (enumerateEndpoints slices tp).length = 0 := by
      rw [← calculateEndpointSliceCapacity_eq]; exact hcap
    simp [List.length_eq_zero.mp hlen]
  · rw [if_neg hcap]
    have hlen : (enumerateEndpoints slices tp).length ≠ 0 := by
      rw [← calculateEndpointSliceCapacity_eq]; exact hcap
    constructor
    · intro hcontra
      exact absurd hcontra (by simp)
    · intro hnil
      exact absurd (by rw [hnil]; rfl) hlen

/-- Witness for C8 at a concrete Service and EndpointSlice list. -/
theorem capacity_matches_enumeration_witness :
    calculateEndpointSliceCapacity [demoSlice] 8080 =
      (enumerateEndpoints [demoSlice] 8080).length ∧
    (Resolve (some demoService) 80 false [demoSlice] =
        .error ResolveError.noValidEndpoints ↔
      enumerateEndpoints [demoSlice] 8080 = []) :=
  capacity_matches_enumeration demoService 80 [demoSlice] 8080 (by decide) rfl

/-! ### Upstream building (internal/state/upstreams.go) -/

/-- `state.backendService`. -/
structure backendService where
  name : String
  namespace' : String
  port : Int
  deriving DecidableEq, Repr

/-- `state.backend`.  The Go field is a `[]Endpoint` slice whose nil and empty
values are observably distinct; it is embedded as `Option (List Endpoint)`
(`none` = nil). -/
structure backend where
  Endpoints : Option (List Endpoint)
  deriving DecidableEq, Repr

/-- `state.Upstream`. -/
structure Upstream where
  Name : String
  Endpoints : Option (List Endpoint)
  deriving DecidableEq, Repr

/-- `state.InvalidBackendRef`. -/
def InvalidBackendRef : String := "invalid_backend_ref"

/-- Decimal digit characters of `n` (fuel-bounded so the recursion is
structural; the fuel `n + 1` always suffices since the value shrinks by a
factor of ten per step). -/
def natToDigitsAux : Nat → Nat → List Char
  | 0, _ => []
  | fuel + 1, n =>
    if n < 10 then [Char.ofNat (48 + n)]
    else natToDigitsAux fuel (n / 10) ++ [Char.ofNat (48 + n % 10)]

def natToDigits (n : Nat) : List Char := natToDigitsAux (n + 1) n

/-- Go's `%d` rendering of an integer (`fmt.Sprintf` / `strconv.FormatInt`). -/
def intToString (i : Int) : String :=
  if i < 0 then "-" ++ String.mk (natToDigits i.natAbs)
  else String.mk (natToDigits i.natAbs)

/-- `generateUpstreamName`. -/
def generateUpstreamName (service : backendService) : String :=
  if service.name = "" then InvalidBackendRef
  else service.namespace' ++ "_" ++ service.name ++ "_" ++ intToString service.port

/-- `buildUpstreams` (iteration order of the Go map is taken as list order). -/
def buildUpstreams (backends : List (backendService × backend)) : List Upstream :=
  backends.foldl
    (fun upstreams p =>
      upstreams ++ [{ Name := generateUpstreamName p.1, Endpoints := p.2.Endpoints }])
    []

theorem natToDigitsAux_getLast? (fuel n : Nat) (h : 0 < fuel) :
    (natToDigitsAux fuel n).getLast? = some (Char.ofNat (48 + n % 10)) := by
  cases fuel with
  | zero => omega
  | succ f =>
    by_cases hn : n < 10
    · simp [natToDigitsAux, hn, Nat.mod_eq_of_lt hn]
    · simp [natToDigitsAux, hn, List.getLast?_concat]

theorem natToDigits_getLast? (n : Nat) :
    (natToDigits n).getLast? = some (Char.ofNat (48 + n % 10)) :=
  natToDigitsAux_getLast? (n + 1) n (by omega)

theorem intToString_data_getLast? (i : Int) :
    (intToString i).data.getLast? = some (Char.ofNat (48 + i.natAbs % 10)) := by
  unfold intToString
  split
  · rw [String.data_append]
    rw [List.getLast?_append]
    have hd : (String.mk (natToDigits i.natAbs)).data.getLast? =
        some (Char.ofNat (48 + i.natAbs % 10)) := natToDigits_getLast? i.natAbs
    rw [hd, Option.or_some]
  · exact natToDigits_getLast? i.natAbs

theorem digit_char_ne_f (m : Nat) (h : m < 10) : Char.ofNat (48 + m) ≠ 'f' := by
  interval_cases m <;> decide

theorem generateUpstreamName_ne_invalid (s : backendService) (h : s.name ≠ "") :
    generateUpstreamName s ≠ InvalidBackendRef := by
  unfold generateUpstreamName
  rw [if_neg h]
  intro heq
  have hlast := congrArg (fun t : String => t.data.getLast?) heq
  simp only [String.data_append] at hlast
  rw [List.getLast?_append, intToString_data_getLast? s.port, Option.or_some] at hlast
  have hf : "invalid_backend_ref".data.getLast? = some 'f' := by decide
  rw [show InvalidBackendRef = "invalid_backend_ref" from rfl, hf] at hlast
  exact digit_char_ne_f (s.port.natAbs % 10) (Nat.mod_lt _ (by omega))
    (Option.some.inj hlast)

/-- C9: `generateUpstreamName` returns `invalid_backend_ref` iff the backend
service name is empty; otherwise it returns `<namespace>_<name>_<port>`,
which is never equal to `invalid_backend_ref`. -/
theorem generateUpstreamName_spec (service : backendService) :
    (generateUpstreamName service = InvalidBackendRef ↔ service.name = "") ∧
    (service.name ≠ "" →
      generateUpstreamName service =
        service.namespace' ++ "_" ++ service.name ++ "_" ++ intToString service.port) := by
  constructor
  · constructor
    · intro h
      by_contra hne
      exact generateUpstreamName_ne_invalid service hne h
    · intro h
      unfold generateUpstreamName
      rw [if_pos h]
  · intro h
    unfold generateUpstreamName
    rw [if_neg h]

/-- Witness for C9 at a concrete backend service. -/
theorem generateUpstreamName_spec_witness :
    generateUpstreamName { name := "foo", namespace' := "test", port := 9090 } =
      "test" ++ "_" ++ "foo" ++ "_" ++ intToString 9090 :=
  (generateUpstreamName_spec { name := "foo", namespace' := "test", port := 9090 }).2
    (by decide)

/-- C5 (counterexample): a backend whose endpoint list is empty but non-nil
yields an Upstream whose Endpoints field is the empty non-nil list, not nil:
`buildUpstreams` copies the field verbatim. -/
theorem buildUpstreams_empty_cex :
    buildUpstreams
        [({ name := "empty-endpoints", namespace' := "test", port := 443 },
          { Endpoints := some [] })] =
      [{ Name := "test_empty-endpoints_443", Endpoints := some [] }] ∧
    some ([] : List Endpoint) ≠ none := by
  constructor
  · decide
  · decide

/-- C5 (amended): `buildUpstreams` carries each backend's Endpoints field over
verbatim, so a nil endpoint list yields a nil Endpoints field, an empty
non-nil list yields an empty non-nil Endpoints field, and in both cases the
produced Upstream has no endpoints (length zero). -/
theorem buildUpstreams_endpoints (backends : List (backendService × backend)) :
    buildUpstreams backends =
      backends.map (fun p => { Name := generateUpstreamName p.1, Endpoints := p.2.Endpoints }) ∧
    ∀ p ∈ backends, (p.2.Endpoints = none ∨ p.2.Endpoints = some []) →
      ∃ u ∈ buildUpstreams backends, u.Name = generateUpstreamName p.1 ∧
        u.Endpoints = p.2.Endpoints ∧ (u.Endpoints.getD []).length = 0 := by
  have hmap : buildUpstreams backends =
      backends.map (fun p => { Name := generateUpstreamName p.1, Endpoints := p.2.Endpoints }) := by
    unfold buildUpstreams
    simpa using foldl_append_singleton
      (fun p : backendService × backend =>
        ({ Name := generateUpstreamName p.1, Endpoints := p.2.Endpoints } : Upstream))
      backends []
  refine ⟨hmap, ?_⟩
  intro p hp hend
  refine ⟨{ Name := generateUpstreamName p.1, Endpoints := p.2.Endpoints }, ?_, rfl, rfl, ?_⟩
  · rw [hmap]
    exact List.mem_map_of_mem _ hp
  · rcases hend with h | h <;> simp [h]

/-- Witness for the amended C5 at a concrete backend map. -/
theorem buildUpstreams_endpoints_witness :
    ∃ u ∈ buildUpstreams
        [({ name := "nil-endpoints", namespace' := "test", port := 443 },
          { Endpoints := none })],
      u.Name = generateUpstreamName
        { name := "nil-endpoints", namespace' := "test", port := 443 } ∧
      u.Endpoints = none ∧ (u.Endpoints.getD []).length = 0 :=
  (buildUpstreams_endpoints
      [({ name := "nil-endpoints", namespace' := "test", port := 443 },
        { Endpoints := none })]).2 _ (List.mem_singleton.mpr rfl) (Or.inl rfl)

/-! ### Change processor (internal/state/configuration.go) -/

/-- `state.SSL`. -/
structure SSL where
  CertificatePath : String
  deriving DecidableEq, Repr

/-- `state.MatchRule`. -/
structure MatchRule where
  MatchIdx : Int
  RuleIdx : Int
  UpstreamName : String
  Source : HTTPRoute
  deriving DecidableEq, Repr

/-- `state.PathRule`. -/
structure PathRule where
  Path : String
  MatchRules : List MatchRule
  deriving DecidableEq, Repr

/-- `state.VirtualServer`. -/
structure VirtualServer where
  Hostname : String
  SSL : Option NKG.SSL
  PathRules : List PathRule
  deriving DecidableEq, Repr

/-- `state.Configuration`. -/
structure Configuration where
  HTTPServers : List VirtualServer
  SSLServers : List VirtualServer
  Upstreams : List Upstream
  deriving DecidableEq, Repr

/-- The Go zero value of `Configuration`. -/
def emptyConfiguration : Configuration := ⟨[], [], []⟩

/-- Modelled from the spec: the `Statuses` record built by the Status Builder
(whose source file is not among the given sources) holds per-resource
acceptance statuses — the GatewayClass verdict with a reason, listener-by-
listener Gateway statuses, and parent-by-parent HTTPRoute statuses.  Only its
zero (empty) value matters for the claims below. -/
structure Statuses where
  gatewayClassStatus : Option (Bool × String)
  listenerStatuses : List (String × Bool)
  httpRouteStatuses : List (NsName × List (String × Bool))
  deriving DecidableEq, Repr

/-- The Go zero value of `Statuses`. -/
def emptyStatuses : Statuses := ⟨none, [], []⟩

/-- `state.store`. -/
structure Store where
  gc : Option GatewayClass
  gateways : List (NsName × Gateway)
  httpRoutes : List (NsName × HTTPRoute)
  services : List (NsName × List NsName)
  endpointSlices : List (NsName × EndpointSlice)
  deriving DecidableEq, Repr

/-- `newStore`. -/
def newStore : Store := ⟨none, [], [], [], []⟩

/-- `ChangeProcessorImpl` (the mutex only serializes calls and has no
sequential semantics). -/
structure ChangeProcessor where
  store : Store
  storeChanged : Bool
  gatewayClassName : String
  deriving DecidableEq, Repr

/-- `NewChangeProcessorImpl`. -/
def NewChangeProcessorImpl (gatewayClassName : String) : ChangeProcessor :=
  { store := newStore, storeChanged := false, gatewayClassName := gatewayClassName }

/-- `getBackendServiceNamesFromRoute` (package state): unlike the
relationship-package copy it returns a slice, so duplicates are kept. -/
def getBackendServiceNamesFromRouteState (hr : HTTPRoute) : List NsName :=
  hr.rules.foldl
    (fun svcNames rule =>
      match rule.backendRefs with
      | [] => svcNames
      | ref :: _ =>
        if refIsNonService ref then svcNames
        else svcNames ++ [refSvcName hr ref])
    []

/-- `ChangeProcessorImpl.captureGatewayClassChange`; `none` models the panic
on a GatewayClass whose name is not the managed one. -/
def captureGatewayClassChange (st : Store) (gatewayClassName : String)
    (gc : GatewayClass) : Option (Bool × Store) :=
  if gc.name ≠ gatewayClassName then none
  else
    some
      ((match st.gc with
        | some prev => if prev.generation = gc.generation then false else true
        | none => true),
       { st with gc := some gc })

/-- `ChangeProcessorImpl.captureGatewayChange`. -/
def captureGatewayChange (st : Store) (gw : Gateway) : Bool × Store :=
  ((match mapLookup st.gateways (gatewayKey gw) with
    | some prev => if gw.generation = prev.generation then false else true
    | none => true),
   { st with gateways := mapInsert st.gateways (gatewayKey gw) gw })

/-- `ChangeProcessorImpl.updateServicesMap`. -/
def updateServicesMap (st : Store) (hr : HTTPRoute) : Store :=
  let services :=
    (getBackendServiceNamesFromRouteState hr).foldl
      (fun m svcNsname =>
        match mapLookup m svcNsname with
        | none => mapInsert m svcNsname [routeKey hr]
        | some existingRoutesForSvc =>
          mapInsert m svcNsname (setInsert existingRoutesForSvc (routeKey hr)))
      st.services
  { st with services := services }

/-- `ChangeProcessorImpl.captureHTTPRouteChange`. -/
def captureHTTPRouteChange (st : Store) (hr : HTTPRoute) : Bool × Store :=
  ((match mapLookup st.httpRoutes (routeKey hr) with
    | some prev => if hr.generation = prev.generation then false else true
    | none => true),
   updateServicesMap { st with httpRoutes := mapInsert st.httpRoutes (routeKey hr) hr } hr)

/-- `ChangeProcessorImpl.captureServiceChange`. -/
def captureServiceChange (st : Store) (svc : Service) : Bool × Store :=
  ((mapLookup st.services (serviceKey svc)).isSome, st)

/-- `ChangeProcessorImpl.updateNeededForEndpointSlice`. -/
def updateNeededForEndpointSlice (st : Store) (es : EndpointSlice) : Bool :=
  es.ownerReferences.any (fun ownerRef =>
    ownerRef.kind == "Service" &&
      (mapLookup st.services (es.namespace', ownerRef.name)).isSome)

/-- `ChangeProcessorImpl.captureEndpointSliceChange`. -/
def captureEndpointSliceChange (st : Store) (es : EndpointSlice) : Bool × Store :=
  if updateNeededForEndpointSlice st es then
    (true, { st with endpointSlices := mapInsert st.endpointSlices (endpointSliceKey es) es })
  else (false, st)

/-- `ChangeProcessorImpl.CaptureUpsertChange`; `none` models the panics. -/
def CaptureUpsertChange (c : ChangeProcessor) (obj : ClientObject) :
    Option ChangeProcessor :=
  match obj with
  | .gatewayClass gc =>
    match captureGatewayClassChange c.store c.gatewayClassName gc with
    | none => none
    | some r => some { c with store := r.2, storeChanged := c.storeChanged || r.1 }
  | .gateway gw =>
    let r := captureGatewayChange c.store gw
    some { c with store := r.2, storeChanged := c.storeChanged || r.1 }
  | .httpRoute hr =>
    let r := captureHTTPRouteChange c.store hr
    some { c with store := r.2, storeChanged := c.storeChanged || r.1 }
  | .service svc =>
    let r := captureServiceChange c.store svc
    some { c with store := r.2, storeChanged := c.storeChanged || r.1 }
  | .endpointSlice es =>
    let r := captureEndpointSliceChange c.store es
    some { c with store := r.2, storeChanged := c.storeChanged || r.1 }

/-- `ChangeProcessorImpl.removeRouteFromServicesMap`. -/
def removeRouteFromServicesMap (st : Store) (hr : HTTPRoute) : Store :=
  let services :=
    (getBackendServiceNamesFromRouteState hr).foldl
      (fun m svcName =>
        match mapLookup m svcName with
        | some routesForSvc =>
          let remaining := routesForSvc.filter (fun k => decide (k ≠ routeKey hr))
          if remaining.length = 0 then mapErase m svcName
          else mapInsert m svcName remaining
        | none => m)
      st.services
  { st with services := services }

/-- `ChangeProcessorImpl.CaptureDeleteChange`; `none` models the panics. -/
def CaptureDeleteChange (c : ChangeProcessor) (resourceType : ResourceKind)
    (nsname : NsName) : Option ChangeProcessor :=
  match resourceType with
  | .gatewayClass =>
    if nsname.2 ≠ c.gatewayClassName then none
    else
      some { c with store := { c.store with gc := none },
                    storeChanged := c.storeChanged || true }
  | .gateway =>
    some { c with store := { c.store with gateways := mapErase c.store.gateways nsname },
                  storeChanged := c.storeChanged || true }
  | .httpRoute =>
    let st :=
      match mapLookup c.store.httpRoutes nsname with
      | some r => removeRouteFromServicesMap c.store r
      | none => c.store
    some { c with store := { st with httpRoutes := mapErase st.httpRoutes nsname },
                  storeChanged := c.storeChanged || true }
  | .service =>
    some { c with storeChanged :=
      c.storeChanged || (mapLookup c.store.services nsname).isSome }
  | .endpointSlice =>
    let resourceChanged :=
      match mapLookup c.store.endpointSlices nsname with
      | some es => updateNeededForEndpointSlice c.store es
      | none => false
    let st := { c.store with endpointSlices := mapErase c.store.endpointSlices nsname }
    some { c with store := st, storeChanged := c.storeChanged || resourceChanged }

/-- `ChangeProcessorImpl.Process`.  The graph/configuration/status builders
are outside the given sources, so their composite is a parameter `build`;
only the `changed` protocol and the returned zero values are verified. -/
def Process (build : Store → Configuration × Statuses) (c : ChangeProcessor) :
    (Bool × Configuration × Statuses) × ChangeProcessor :=
  if c.storeChanged then
    ((true, (build c.store).1, (build c.store).2), { c with storeChanged := false })
  else ((false, emptyConfiguration, emptyStatuses), c)

/-- C6: a GatewayClass, Gateway, or HTTPRoute upsert whose stored predecessor
has the same Generation leaves `storeChanged` unchanged while still replacing
the stored entry with the freshly passed object. -/
theorem captureUpsert_same_generation (c : ChangeProcessor) (gc prevgc : GatewayClass)
    (gw prevgw : Gateway) (hr prevhr : HTTPRoute) :
    (gc.name = c.gatewayClassName → c.store.gc = some prevgc →
      prevgc.generation = gc.generation →
      ∃ c', CaptureUpsertChange c (ClientObject.gatewayClass gc) = some c' ∧
        c'.storeChanged = c.storeChanged ∧ c'.store.gc = some gc) ∧
    (mapLookup c.store.gateways (gatewayKey gw) = some prevgw →
      gw.generation = prevgw.generation →
      ∃ c', CaptureUpsertChange c (ClientObject.gateway gw) = some c' ∧
        c'.storeChanged = c.storeChanged ∧
        mapLookup c'.store.gateways (gatewayKey gw) = some gw) ∧
    (mapLookup c.store.httpRoutes (routeKey hr) = some prevhr →
      hr.generation = prevhr.generation →
      ∃ c', CaptureUpsertChange c (ClientObject.httpRoute hr) = some c' ∧
        c'.storeChanged = c.storeChanged ∧
        mapLookup c'.store.httpRoutes (routeKey hr) = some hr) := by
  refine ⟨?_, ?_, ?_⟩
  · intro hname hprev hgen
    have hcl : captureGatewayClassChange c.store c.gatewayClassName gc =
        some (false, { c.store with gc := some gc }) := by
      unfold captureGatewayClassChange
      rw [if_neg (fun hne => hne hname), hprev]
      simp [hgen]
    simp only [CaptureUpsertChange, hcl]
    exact ⟨_, rfl, by simp, rfl⟩
  · intro hprev hgen
    simp only [CaptureUpsertChange, captureGatewayChange, hprev, if_pos hgen]
    refine ⟨_, rfl, by simp, ?_⟩
    rw [mapLookup_insert, if_pos rfl]
  · intro hprev hgen
    simp only [CaptureUpsertChange, captureHTTPRouteChange, hprev, if_pos hgen]
    refine ⟨_, rfl, by simp, ?_⟩
    show mapLookup (updateServicesMap _ hr).httpRoutes (routeKey hr) = some hr
    have hframe : ∀ (st : Store), (updateServicesMap st hr).httpRoutes = st.httpRoutes :=
      fun st => rfl
    rw [hframe, mapLookup_insert, if_pos rfl]

/-- A concrete GatewayClass used by witnesses. -/
def demoGC : GatewayClass := { name := "nginx", generation := 1 }

/-- A concrete Gateway used by witnesses. -/
def demoGW : Gateway := { namespace' := "test", name := "gw", generation := 3 }

/-- A concrete ChangeProcessor whose store already holds `demoGC`, `demoGW`
and `demoRouteA`, used by witnesses. -/
def demoProcessor : ChangeProcessor :=
  { store :=
      { gc := some demoGC,
        gateways := [(("test", "gw"), demoGW)],
        httpRoutes := [(("test", "hr-1"), demoRouteA)],
        services := [],
        endpointSlices := [] },
    storeChanged := false,
    gatewayClassName := "nginx" }

/-- Witness for C6 at concrete same-generation upserts. -/
theorem captureUpsert_same_generation_witness :
    (∃ c', CaptureUpsertChange demoProcessor (ClientObject.gatewayClass demoGC) = some c' ∧
      c'.storeChanged = demoProcessor.storeChanged ∧ c'.store.gc = some demoGC) ∧
    (∃ c', CaptureUpsertChange demoProcessor (ClientObject.gateway demoGW) = some c' ∧
      c'.storeChanged = demoProcessor.storeChanged ∧
      mapLookup c'.store.gateways (gatewayKey demoGW) = some demoGW) ∧
    (∃ c', CaptureUpsertChange demoProcessor (ClientObject.httpRoute demoRouteA) = some c' ∧
      c'.storeChanged = demoProcessor.storeChanged ∧
      mapLookup c'.store.httpRoutes (routeKey demoRouteA) = some demoRouteA) :=
  ⟨(captureUpsert_same_generation demoProcessor demoGC demoGC demoGW demoGW
      demoRouteA demoRouteA).1 rfl rfl rfl,
   (captureUpsert_same_generation demoProcessor demoGC demoGC demoGW demoGW
      demoRouteA demoRouteA).2.1 (by decide) rfl,
   (captureUpsert_same_generation demoProcessor demoGC demoGC demoGW demoGW
      demoRouteA demoRouteA).2.2 (by decide) rfl⟩

/-- C7: `Process` returns `(false, empty Configuration, empty Statuses)` and
leaves the processor untouched whenever `storeChanged` is false; after any
`Process` call the flag is false, so a second `Process` with no intervening
capture returns `changed = false`. -/
theorem process_unchanged (build : Store → Configuration × Statuses)
    (c : ChangeProcessor) :
    (c.storeChanged = false →
      Process build c = ((false, emptyConfiguration, emptyStatuses), c)) ∧
    (Process build c).2.storeChanged = false ∧
    (Process build (Process build c).2).1.1 = false := by
  refine ⟨?_, ?_, ?_⟩
  · intro h
    simp [Process, h]
  · by_cases hb : c.storeChanged <;> simp [Process, hb]
  · by_cases hb : c.storeChanged <;> simp [Process, hb]

/-- Witness for C7 at a concrete processor with a clear flag. -/
theorem process_unchanged_witness :
    Process (fun _ => (emptyConfiguration, emptyStatuses))
        (NewChangeProcessorImpl "nginx") =
      ((false, emptyConfiguration, emptyStatuses), NewChangeProcessorImpl "nginx") :=
  (process_unchanged (fun _ => (emptyConfiguration, emptyStatuses))
      (NewChangeProcessorImpl "nginx")).1 rfl

/-- C10: deleting a GatewayClass (with the managed name), a Gateway, or an
HTTPRoute always sets `storeChanged` — even when no resource with that key is
stored — so the next `Process` returns `changed = true`. -/
theorem captureDelete_always_changes (c : ChangeProcessor) (nsname : NsName)
    (build : Store → Configuration × Statuses) :
    (nsname.2 = c.gatewayClassName →
      ∃ c', CaptureDeleteChange c ResourceKind.gatewayClass nsname = some c' ∧
        c'.storeChanged = true ∧ (Process build c').1.1 = true) ∧
    (∃ c', CaptureDeleteChange c ResourceKind.gateway nsname = some c' ∧
      c'.storeChanged = true ∧ (Process build c').1.1 = true) ∧
    (∃ c', CaptureDeleteChange c ResourceKind.httpRoute nsname = some c' ∧
      c'.storeChanged = true ∧ (Process build c').1.1 = true) := by
  refine ⟨?_, ?_, ?_⟩
  · intro hname
    have hcond : ¬(nsname.2 ≠ c.gatewayClassName) := fun hne => hne hname
    simp only [CaptureDeleteChange, if_neg hcond]
    exact ⟨_, rfl, by simp, by simp [Process]⟩
  · exact ⟨_, rfl, by simp, by simp [Process]⟩
  · exact ⟨_, rfl, by simp, by simp [Process]⟩

/-- Witness for C10 at a concrete processor whose store holds none of the
deleted keys. -/
theorem captureDelete_always_changes_witness :
    (∃ c', CaptureDeleteChange (NewChangeProcessorImpl "nginx")
        ResourceKind.gatewayClass ("", "nginx") = some c' ∧
      c'.storeChanged = true ∧
      (Process (fun _ => (emptyConfiguration, emptyStatuses)) c').1.1 = true) ∧
    (∃ c', CaptureDeleteChange (NewChangeProcessorImpl "nginx")
        ResourceKind.gateway ("test", "absent") = some c' ∧
      c'.storeChanged = true ∧
      (Process (fun _ => (emptyConfiguration, emptyStatuses)) c').1.1 = true) :=
  ⟨(captureDelete_always_changes (NewChangeProcessorImpl "nginx") ("", "nginx")
      (fun _ => (emptyConfiguration, emptyStatuses))).1 rfl,
   (captureDelete_always_changes (NewChangeProcessorImpl "nginx") ("test", "absent")
      (fun _ => (emptyConfiguration, emptyStatuses))).2.1⟩

end NKG
